import Mathlib

/-!
Verification of the MySuperWhisper orchestration core against its design
document.  The Python modules `keyboard.py`, `audio.py`, `main.py`,
`transcription.py` and `voice_commands.py` are shallowly embedded below:
module-level mutable state becomes explicit state records, thread timers
become explicit fire-times, and side effects (sounds, notifications,
pastes, queue puts, tray updates) become explicit effect lists.
Timestamps are modelled in integral milliseconds (gesture detector) or
seconds (sleep monitor), matching the constants 0.5 s / 0.3 s and
15 s / 900 s in the source.
-/

/-! ## Gesture detector (`keyboard.py`)

The source keeps module globals `_last_ctrl_time`, `_ctrl_press_count`
and `_ctrl_action_timer` and handles every ctrl key release in
`_on_key_release`; a `threading.Timer(0.3, _execute_double_ctrl_action)`
is armed when the press count reaches 2.  We model the timer as its
scheduled fire time; a pending timer fires before any release arriving
at or after that time, and a pending timer left at the end of a trace
eventually fires.  Non-ctrl releases are ignored by the source and are
therefore not part of the traces.  `_last_ctrl_time` is initialised to
`0` in the source while `time.time()` returns large wall-clock values,
so the first release always sees a gap of at least 0.5 s; we model this
with an `Option` that is `none` before the first release.
-/

inductive GAction where
  | double
  | triple
deriving DecidableEq, Repr

structure GState where
  lastCtrlTime : Option Nat
  ctrlPressCount : Nat
  actionTimer : Option Nat
deriving DecidableEq, Repr

def initG : GState := ⟨none, 0, none⟩

/-- `_execute_double_ctrl_action`, run when the armed timer fires at time
`ft`: invoke the double callback only if the press count is still exactly
2, then reset the count to 0 and clear the timer handle. -/
def execDouble (s : GState) (ft : Nat) : GState × List (Nat × GAction) :=
  (⟨s.lastCtrlTime, 0, none⟩,
   if s.ctrlPressCount = 2 then [(ft, GAction.double)] else [])

/-- A pending timer that is due at or before `now` fires before the event
at `now` is processed (the race at exactly `now` is resolved timer-first;
with real-valued wall clocks the tie has measure zero). -/
def fireDue (s : GState) (now : Nat) : GState × List (Nat × GAction) :=
  match s.actionTimer with
  | some ft => if ft ≤ now then execDouble s ft else (s, [])
  | none => (s, [])

/-- The `current_time - _last_ctrl_time < 0.5` test of `_on_key_release`. -/
def gapSmall (last : Option Nat) (t : Nat) : Bool :=
  match last with
  | some lt => t - lt < 500
  | none => false

/-- `_on_key_release` for a ctrl release at time `t`; `recording` is the
value of `_is_recording_callback()` at that moment.  Emits the callback
invocations as `(time, action)` pairs. -/
def release (s : GState) (t : Nat) (recording : Bool) : GState × List (Nat × GAction) :=
  let p := fireDue s t
  let s1 := p.1
  if gapSmall s1.lastCtrlTime t then
    let c := s1.ctrlPressCount + 1
    if c = 2 then
      -- double detected: cancel any pending timer and arm a fresh 300 ms one
      (⟨some t, 2, some (t + 300)⟩, p.2)
    else if 3 ≤ c then
      -- triple: cancel the pending timer, reset the count, and open history
      -- only if not recording
      (⟨some t, 0, none⟩,
       p.2 ++ (if recording then [] else [(t, GAction.triple)]))
    else
      (⟨some t, c, s1.actionTimer⟩, p.2)
  else
    -- too much time between presses: cancel the timer, restart the count
    (⟨some t, 1, none⟩, p.2)

/-- Process a trace of ctrl release times in order. -/
def runRel (s : GState) (ts : List Nat) (rec : Nat → Bool) : GState × List (Nat × GAction) :=
  match ts with
  | [] => (s, [])
  | t :: rest =>
    let p := release s t (rec t)
    let q := runRel p.1 rest rec
    (q.1, p.2 ++ q.2)

/-- A timer still pending after the last release eventually fires. -/
def flushTimer (s : GState) : GState × List (Nat × GAction) :=
  match s.actionTimer with
  | some ft => execDouble s ft
  | none => (s, [])

/-- All callback invocations produced by a complete trace of ctrl releases. -/
def gestureRun (ts : List Nat) (rec : Nat → Bool) : List (Nat × GAction) :=
  (runRel initG ts rec).2 ++ (flushTimer (runRel initG ts rec).1).2

/-- The detector state once the trace and any pending timer have run out. -/
def gestureFinal (ts : List Nat) (rec : Nat → Bool) : GState :=
  (flushTimer (runRel initG ts rec).1).1

/-- The times at which the double callback is invoked. -/
def doubleOuts (outs : List (Nat × GAction)) : List Nat :=
  (outs.filter (fun o => o.2 = GAction.double)).map (fun o => o.1)

/-! ### Specification-side model of the Double gesture

Modelled from the spec: "a Double fires if and only if exactly two
releases occur within 500 ms of each other and no third release occurs
within the following 300 ms", firing "once, 300 ms after the second
release".  The state `(last, c)` is the time of the previous release and
the number of releases in the current burst: `c = 1` means one release so
far (a potential first of a pair), `c = 2` means a pair within 500 ms is
awaiting its 300 ms confirmation.  There is no timer object and no
recording flag here: a pending pair is confirmed as a Double, at time
`lt + 300`, exactly when the next release comes at least 300 ms after the
second (or never comes); a third release within those 300 ms makes the
burst a triple and no Double is reported ("exactly two"). -/
def timerOf (last : Option Nat) (c : Nat) : Option Nat :=
  match last with
  | some lt => if c = 2 then some (lt + 300) else none
  | none => none

def specNext (last : Option Nat) (c : Nat) (t : Nat) : (Option Nat × Nat) × List Nat :=
  let fired : List Nat :=
    match last with
    | some lt => if c = 2 ∧ lt + 300 ≤ t then [lt + 300] else []
    | none => []
  let c0 := if fired.isEmpty then c else 0
  if gapSmall last t then
    if c0 + 1 = 2 then ((some t, 2), fired)
    else if 3 ≤ c0 + 1 then ((some t, 0), fired)
    else ((some t, c0 + 1), fired)
  else ((some t, 1), fired)

def specDoubles (last : Option Nat) (c : Nat) : List Nat → List Nat
  | [] =>
    match last with
    | some lt => if c = 2 then [lt + 300] else []
    | none => []
  | t :: rest =>
    let r := specNext last c t
    r.2 ++ specDoubles r.1.1 r.1.2 rest

/-! ## Audio session (`audio.py`)

Module globals `audio_buffer` and `is_recording`; sample chunks are
modelled as integer lists (the source appends `numpy` blocks of a fixed
single-channel shape, so the `ValueError` branch of `np.concatenate`
cannot trigger in the model).  The mic-test branch of the callback only
feeds a separate test queue and is omitted. -/

structure AudioState where
  is_recording : Bool
  audio_buffer : List (List Int)
deriving DecidableEq, Repr

/-- `_audio_callback`: append the incoming block if recording. -/
def audio_callback (s : AudioState) (indata : List Int) : AudioState :=
  if s.is_recording then ⟨s.is_recording, s.audio_buffer ++ [indata]⟩ else s

/-- `start_recording`: reset the buffer and set the flag. -/
def start_recording : AudioState := ⟨true, []⟩

/-- `stop_recording`: clear the flag; return `none` on an empty buffer,
otherwise the concatenation of all chunks in capture order. -/
def stop_recording (s : AudioState) : AudioState × Option (List Int) :=
  (⟨false, s.audio_buffer⟩,
   if s.audio_buffer.isEmpty then none else some s.audio_buffer.flatten)

/-- `get_current_buffer`: non-destructive snapshot of the buffer so far. -/
def get_current_buffer (s : AudioState) : Option (List Int) :=
  if s.audio_buffer.isEmpty then none else some s.audio_buffer.flatten

/-- A sequence of capture-callback invocations. -/
def feedChunks (s : AudioState) (cs : List (List Int)) : AudioState :=
  cs.foldl audio_callback s

/-- `prepare_for_whisper`: decimate 48 kHz to 16 kHz by keeping every
third sample (`audio_data[::3]`). -/
def prepare_for_whisper : List Int → List Int
  | [] => []
  | x :: rest => x :: prepare_for_whisper (rest.drop 2)
termination_by l => l.length
decreasing_by
  simp only [List.length_drop, List.length_cons]
  omega

/-! ## Voice commands (`voice_commands.py`)

Text is processed as `List Char`.  Case-insensitive matching is modelled
with the ASCII `Char.toLower` (the regex patterns are all lowercase; the
accented characters in the French/Spanish phrases are outside ASCII case
folding, a restriction of the model that does not affect the ASCII
phrases the claims are about).  `\b` word boundaries use the ASCII word
characters `[A-Za-z0-9_]`. -/

def isWordChar (c : Char) : Bool := c.isAlphanum || c == '_'

def lowerList (cs : List Char) : List Char := cs.map Char.toLower

/-- Python `str.strip()`. -/
def pyStrip (cs : List Char) : List Char :=
  ((cs.dropWhile Char.isWhitespace).reverse.dropWhile Char.isWhitespace).reverse

/-- A hallucination pattern `^PHRASE[\.\!]*$`: the (already stripped and
lowered) text is the phrase followed by any run of dots or bangs. -/
def phraseTrail (phrase : String) (t : List Char) : Bool :=
  t.take phrase.data.length == phrase.data &&
    (t.drop phrase.data.length).all (fun c => c == '.' || c == '!')

/-- The `HALLUCINATIONS` filter applied by `process_voice_commands`:
`re.match(pattern, text.strip(), re.IGNORECASE)` over the five built-in
patterns. -/
def hallucinationMatch (text : String) : Bool :=
  let t := lowerList (pyStrip text.data)
  phraseTrail "beep" t ||
  phraseTrail "merci d\x27avoir regardé cette vidéo" t ||
  t == "sous-titres réalisés para la communauté d\x27amara.org".data ||
  phraseTrail "thank you for watching" t ||
  phraseTrail "thanks for watching" t

/-- The `NEWLINE_PATTERNS` phrases, in source order (each is wrapped in
`\b...\b` in the source). -/
def newlinePhrases : List String :=
  ["retour à la ligne", "retour a la ligne", "nouvelle ligne",
   "à la ligne", "a la ligne", "saut de ligne", "ligne suivante",
   "new line", "newline", "line break", "next line", "carriage return",
   "nueva línea", "nueva linea", "salto de línea", "salto de linea",
   "línea siguiente", "linea siguiente"]

/-- Does the lowered text start with `phrase` followed by a word
boundary? -/
def matchAt (phrase cs : List Char) : Bool :=
  lowerList (cs.take phrase.length) == phrase &&
    (match cs.drop phrase.length with
     | [] => true
     | d :: _ => !isWordChar d)

/-- One `re.sub(r'\b...\b', '\n', text, flags=re.IGNORECASE)` pass:
replace every non-overlapping occurrence of `phrase` (at word
boundaries) with a newline, scanning left to right.  `prevW` records
whether the character before the current position is a word character. -/
def replaceGo (phrase : List Char) (prevW : Bool) (cs : List Char) : List Char :=
  match cs with
  | [] => []
  | c :: rest =>
    if !prevW && !phrase.isEmpty && matchAt phrase (c :: rest) then
      -- the scan resumes after the matched region of the original text,
      -- whose last character is the phrase's last character
      '\n' :: replaceGo phrase (isWordChar (phrase.getLastD ' '))
               (rest.drop (phrase.length - 1))
    else
      c :: replaceGo phrase (isWordChar c) rest
termination_by cs.length
decreasing_by
  · simp only [List.length_drop, List.length_cons]
    omega
  · simp only [List.length_cons]
    omega

def replacePhrase (phrase : String) (cs : List Char) : List Char :=
  replaceGo phrase.data false cs

def applyNewlinePatterns (cs : List Char) : List Char :=
  newlinePhrases.foldl (fun acc p => replacePhrase p acc) cs

/-- Drop the run of spaces directly after each newline; `afterNl` is true
while still inside such a run. -/
def dropSpAfterNlGo (afterNl : Bool) : List Char → List Char
  | [] => []
  | c :: rest =>
    if afterNl && c == ' ' then dropSpAfterNlGo true rest
    else if c == '\n' then c :: dropSpAfterNlGo true rest
    else c :: dropSpAfterNlGo false rest

def dropSpAfterNl (cs : List Char) : List Char := dropSpAfterNlGo false cs

/-- `re.sub(r' *\n *', '\n', text)`: spaces around newlines are removed
(a reversed second pass removes the spaces before each newline). -/
def cleanNewlines (cs : List Char) : List Char :=
  (dropSpAfterNl ((dropSpAfterNl cs).reverse)).reverse

/-- Python `str.split()`: split on whitespace runs, no empty words. -/
def splitWs (cs : List Char) : List (List Char) :=
  (cs.foldr
    (fun c acc =>
      if c.isWhitespace then [] :: acc
      else
        match acc with
        | [] => [[c]]
        | w :: ws => (c :: w) :: ws)
    []).filter (fun w => !w.isEmpty)

/-- `' '.join(words)`. -/
def joinSpace (ws : List (List Char)) : List Char :=
  (ws.intersperse [' ']).flatten

/-- `.rstrip('.,!?;:')`. -/
def stripValidPunct (w : List Char) : List Char :=
  (w.reverse.dropWhile
    (fun c => c == '.' || c == ',' || c == '!' || c == '?' || c == ';' || c == ':')).reverse

/-- The `VALIDATE_KEYWORDS` set. -/
def validateKeywords : List (List Char) :=
  (["valider", "validé", "valide", "entrée", "entrer",
    "enter", "submit", "validate", "send", "confirm",
    "enviar", "validar", "confirmar", "entrar"]).map String.data

/-- `process_voice_commands(text)`: hallucination filter, newline
command substitution, space cleanup around newlines, and trailing
validation-keyword detection.  Returns `(processed_text,
should_validate)`. -/
def process_voice_commands (text : String) : String × Bool :=
  if hallucinationMatch text then ("", false)
  else
    let cs1 := applyNewlinePatterns text.data
    let cs2 := if cs1.contains '\n' then cleanNewlines cs1 else cs1
    let words := splitWs (pyStrip cs2)
    match words.getLast? with
    | none => (String.mk cs2, false)
    | some w =>
      if stripValidPunct (lowerList w) ∈ validateKeywords then
        (String.mk (joinSpace words.dropLast), true)
      else (String.mk cs2, false)

/-! ## Transcription engine (`transcription.py`)

The faster-whisper model handle is abstracted as an optional segment
generator `(audio, beam_size, language) ↦ segments-or-exception`;
`Except.error` stands for a raised exception. -/

def AsrModel : Type := List Int → Nat → String → Except String (List String)

/-- `transcribe(audio_data, language=None, fast=False)`: returns `""`
when no model is loaded; otherwise joins the segment texts with spaces
and strips the result, re-raising any engine exception. -/
def transcribe (model : Option AsrModel) (configLang : String)
    (audio_data : List Int) (language : Option String) (fast : Bool) :
    Except String String :=
  match model with
  | none => Except.ok ""
  | some m =>
    let lang := language.getD configLang
    let beam_size := if fast then 1 else 5
    match m audio_data beam_size lang with
    | Except.ok segs => Except.ok ((" ".intercalate segs).trim)
    | Except.error e => Except.error e

/-- The processing loop calls `transcription.transcribe(audio_16k)`,
i.e. default language and `fast=False`. -/
def asrOf (model : Option AsrModel) (configLang : String) :
    List Int → Except String String :=
  fun a => transcribe model configLang a none false

/-! ## Orchestration (`main.py`) -/

inductive TrayState where
  | idle
  | recording
  | processing
  | loading
  | sleeping
deriving DecidableEq, Repr

/-- Outcome of `stop_and_process`: the new audio state, the sounds
played, the final tray state, and the job put on `processing_queue`
(if any).  The module-level `_is_recording` flag (which only steers the
live-preview loop) is set to `False` on entry and is not tracked here. -/
structure StopOutcome where
  audio : AudioState
  sounds : List String
  trayUpd : TrayState
  enqueued : Option (List Int)
deriving DecidableEq, Repr

/-- `stop_and_process()`: stop the recording; on `None` play the error
sound and go idle; on fewer than 48000 samples (1 s at 48 kHz) silently
go idle; otherwise play the success sound, show `processing` and enqueue
the audio for the worker. -/
def stop_and_process (s : AudioState) : StopOutcome :=
  let p := stop_recording s
  match p.2 with
  | none => ⟨p.1, ["error"], TrayState.idle, none⟩
  | some a =>
    if a.length < 48000 then ⟨p.1, [], TrayState.idle, none⟩
    else ⟨p.1, ["success"], TrayState.processing, some a⟩

/-- Observable side effects of one `audio_processing_loop` iteration. -/
inductive Eff where
  | playback
  | sound (name : String)
  | notify (title msg icon : String)
  | pasteText (text : String) (pressEnter : Bool)
  | pressEnterKey
  | histAdd (text : String)
  | tray (st : TrayState)
deriving DecidableEq, Repr

/-- The body of `audio_processing_loop` for one dequeued job.  `asr` is
`transcription.transcribe` on the downsampled audio (an `Except.error`
is a raised exception, caught by the `try`/`except` in the loop body);
`vcEnabled` is `config.voice_commands_enabled` and `playbackArg` the
`--playback` debug flag.  Every branch falls through to
`tray.update_tray("idle")`. -/
def audio_process_job (asr : List Int → Except String String)
    (vcEnabled playbackArg : Bool) (audio_data : List Int) : List Eff :=
  let pb := if playbackArg then [Eff.playback] else []
  let audio_16k := prepare_for_whisper audio_data
  let body : List Eff :=
    match asr audio_16k with
    | Except.ok text =>
      if text = "" then
        [Eff.sound "error",
         Eff.notify "MySuperWhisper" "No text detected" "dialog-warning"]
      else
        let pr := if vcEnabled then process_voice_commands text else (text, false)
        if pr.1 = "" then
          if pr.2 then
            [Eff.pressEnterKey,
             Eff.notify "MySuperWhisper" "Enter key sent" "dialog-ok"]
          else []
        else
          [Eff.pasteText pr.1 pr.2, Eff.histAdd text,
           Eff.notify "MySuperWhisper"
             ("Text pasted (" ++ toString pr.1.length ++ " chars)") "dialog-ok"]
    | Except.error e =>
      [Eff.sound "error",
       Eff.notify "MySuperWhisper" ("Error: " ++ e) "dialog-error"]
  pb ++ body ++ [Eff.tray TrayState.idle]

/-- The worker loop: each queued job is processed in order, one at a
time; the body is total (exceptions are caught inside it), so the loop
reaches every job. -/
def audio_processing_run (asr : List Int → Except String String)
    (vcEnabled playbackArg : Bool) (jobs : List (List Int)) : List (List Eff) :=
  jobs.map (audio_process_job asr vcEnabled playbackArg)

/-! ### Sleep monitor and gesture handlers -/

/-- System-level calls made by `update_activity`, `sleep_monitor_worker`
and the gesture handlers. -/
inductive SysAction where
  | stopStream
  | startStream
  | loadModel
  | unloadModel
  | recStart
  | recStop
  | histOpen
deriving DecidableEq, Repr

/-- The `main.py` module state: `_last_activity_time` (seconds),
`_is_sleeping`, `_is_model_loaded`, the history-popup flag, the
`config.unload_model_after_inactivity` switch, and the audio module
state. -/
structure MainState where
  last_activity_time : Nat
  is_sleeping : Bool
  is_model_loaded : Bool
  popupOpen : Bool
  cfgUnload : Bool
  audio : AudioState
deriving DecidableEq, Repr

/-- `AUTO_SLEEP_TIMEOUT = 15` seconds. -/
def AUTO_SLEEP_TIMEOUT : Nat := 15

/-- `MODEL_UNLOAD_TIMEOUT = 60 * 15` seconds. -/
def MODEL_UNLOAD_TIMEOUT : Nat := 900

/-- `update_activity()` at wall time `now`: refresh the activity
timestamp; if sleeping, wake up and restart the capture stream; if the
model was unloaded, reload it.  (The tray updates on this path are not
tracked.) -/
def update_activity (m : MainState) (now : Nat) : MainState × List SysAction :=
  let m1 : MainState := { m with last_activity_time := now }
  let p2 : MainState × List SysAction :=
    if m1.is_sleeping then ({ m1 with is_sleeping := false }, [SysAction.startStream])
    else (m1, [])
  let p3 : MainState × List SysAction :=
    if p2.1.is_model_loaded then (p2.1, [])
    else ({ p2.1 with is_model_loaded := true }, [SysAction.loadModel])
  (p3.1, p2.2 ++ p3.2)

/-- `on_double_ctrl()`: update activity first, then toggle recording
(`stop_and_process` or `start_recording`). -/
def on_double_ctrl (m : MainState) (now : Nat) : MainState × List SysAction :=
  let p := update_activity m now
  if p.1.audio.is_recording then
    ({ p.1 with audio := (stop_and_process p.1.audio).audio },
     p.2 ++ [SysAction.recStop])
  else
    ({ p.1 with audio := start_recording }, p.2 ++ [SysAction.recStart])

/-- `on_triple_ctrl()`: update activity first, then open the history
popup if it is not already open. -/
def on_triple_ctrl (m : MainState) (now : Nat) : MainState × List SysAction :=
  let p := update_activity m now
  if p.1.popupOpen then p
  else ({ p.1 with popupOpen := true }, p.2 ++ [SysAction.histOpen])

/-- One iteration of `sleep_monitor_worker` waking at wall time `now`:
enter sleep (stopping the capture stream) when awake, not recording and
inactive for more than `AUTO_SLEEP_TIMEOUT`; additionally unload the
model after `MODEL_UNLOAD_TIMEOUT` when configured. -/
def sleep_monitor_poll (m : MainState) (now : Nat) : MainState × List SysAction :=
  let inactive := now - m.last_activity_time
  let p1 : MainState × List SysAction :=
    if m.is_sleeping = false ∧ m.audio.is_recording = false ∧
        AUTO_SLEEP_TIMEOUT < inactive then
      ({ m with is_sleeping := true }, [SysAction.stopStream])
    else (m, [])
  let p2 : MainState × List SysAction :=
    if p1.1.cfgUnload = true ∧ p1.1.is_model_loaded = true ∧
        p1.1.audio.is_recording = false ∧ MODEL_UNLOAD_TIMEOUT < inactive then
      ({ p1.1 with is_model_loaded := false }, [SysAction.unloadModel])
    else (p1.1, [])
  (p2.1, p1.2 ++ p2.2)

/-- A run of monitor iterations at the given wall times, with no user
activity in between. -/
def pollRun (m : MainState) : List Nat → MainState × List SysAction
  | [] => (m, [])
  | n :: ns =>
    let p := sleep_monitor_poll m n
    let q := pollRun p.1 ns
    (q.1, p.2 ++ q.2)

/-! ## Helper lemmas -/

theorem doubleOuts_append (a b : List (Nat × GAction)) :
    doubleOuts (a ++ b) = doubleOuts a ++ doubleOuts b := by
  simp [doubleOuts]

theorem doubleOuts_cons_double (t : Nat) (tl : List (Nat × GAction)) :
    doubleOuts ((t, GAction.double) :: tl) = t :: doubleOuts tl := by
  simp [doubleOuts]

theorem doubleOuts_cons_triple (t : Nat) (tl : List (Nat × GAction)) :
    doubleOuts ((t, GAction.triple) :: tl) = doubleOuts tl := by
  simp [doubleOuts]

theorem count_doubleOuts (l : List (Nat × GAction)) (u : Nat) :
    (doubleOuts l).count u = l.count (u, GAction.double) := by
  induction l with
  | nil => rfl
  | cons hd tl ih =>
    obtain ⟨t, a⟩ := hd
    cases a with
    | double =>
      rw [doubleOuts_cons_double]
      by_cases h : t = u <;> simp [List.count_cons, h, ih]
    | triple =>
      rw [doubleOuts_cons_triple]
      simp [List.count_cons, ih]

/-- Unfolding equation for `release`. -/
theorem release_eq (s : GState) (t : Nat) (r : Bool) :
    release s t r =
      if gapSmall (fireDue s t).1.lastCtrlTime t then
        if (fireDue s t).1.ctrlPressCount + 1 = 2 then
          (⟨some t, 2, some (t + 300)⟩, (fireDue s t).2)
        else if 3 ≤ (fireDue s t).1.ctrlPressCount + 1 then
          (⟨some t, 0, none⟩,
           (fireDue s t).2 ++ (if r then [] else [(t, GAction.triple)]))
        else
          (⟨some t, (fireDue s t).1.ctrlPressCount + 1, (fireDue s t).1.actionTimer⟩,
           (fireDue s t).2)
      else (⟨some t, 1, none⟩, (fireDue s t).2) := rfl

theorem fireDue_lastCtrlTime (s : GState) (now : Nat) :
    (fireDue s now).1.lastCtrlTime = s.lastCtrlTime := by
  unfold fireDue
  cases h : s.actionTimer with
  | none => rfl
  | some ft =>
    dsimp only
    by_cases hle : ft ≤ now
    · rw [if_pos hle]
      rfl
    · rw [if_neg hle]

theorem triple_notin_fireDue (s : GState) (now u : Nat) :
    (u, GAction.triple) ∉ (fireDue s now).2 := by
  unfold fireDue
  cases h : s.actionTimer with
  | none => simp
  | some ft =>
    dsimp only
    by_cases hle : ft ≤ now
    · rw [if_pos hle]
      unfold execDouble
      split <;> simp
    · rw [if_neg hle]
      simp

theorem triple_notin_flushTimer (s : GState) (u : Nat) :
    (u, GAction.triple) ∉ (flushTimer s).2 := by
  unfold flushTimer
  cases h : s.actionTimer with
  | none => simp
  | some ft =>
    dsimp only
    unfold execDouble
    split <;> simp

/-- The triple callback is emitted only from the `count >= 3` branch: the
release time is the emission time, the recording flag was false, and the
resulting state is fully reset. -/
theorem release_triple_state (s : GState) (t u : Nat) (r : Bool)
    (h : (u, GAction.triple) ∈ (release s t r).2) :
    u = t ∧ r = false ∧ (release s t r).1 = ⟨some t, 0, none⟩ := by
  rw [release_eq] at h ⊢
  by_cases hg : gapSmall (fireDue s t).1.lastCtrlTime t
  · rw [if_pos hg] at h ⊢
    by_cases h2 : (fireDue s t).1.ctrlPressCount + 1 = 2
    · rw [if_pos h2] at h
      exact absurd h (triple_notin_fireDue s t u)
    · rw [if_neg h2] at h ⊢
      by_cases h3 : 3 ≤ (fireDue s t).1.ctrlPressCount + 1
      · rw [if_pos h3] at h ⊢
        rcases List.mem_append.mp h with hm | hm
        · exact absurd hm (triple_notin_fireDue s t u)
        · cases r with
          | false =>
            simp at hm
            exact ⟨hm, rfl, rfl⟩
          | true => simp at hm
      · rw [if_neg h3] at h
        exact absurd h (triple_notin_fireDue s t u)
  · rw [if_neg hg] at h
    exact absurd h (triple_notin_fireDue s t u)

theorem doubleOuts_triple_ite (r : Bool) (t : Nat) :
    doubleOuts (if r then [] else [(t, GAction.triple)]) = [] := by
  cases r <;> simp [doubleOuts]

/-- Simulation step: one `_on_key_release` of the timer-based detector
corresponds to one `specNext` step of the specification-side scan, with
the pending timer abstracted by `timerOf`. -/
theorem release_matches_specNext (last : Option Nat) (c : Nat) (t : Nat) (r : Bool) :
    (release ⟨last, c, timerOf last c⟩ t r).1 =
      ⟨(specNext last c t).1.1, (specNext last c t).1.2,
       timerOf (specNext last c t).1.1 (specNext last c t).1.2⟩ ∧
    doubleOuts (release ⟨last, c, timerOf last c⟩ t r).2 = (specNext last c t).2 := by
  cases last with
  | none =>
    simp [release_eq, fireDue, timerOf, specNext, gapSmall, doubleOuts]
  | some lt =>
    by_cases hc : c = 2
    · subst hc
      by_cases hf : lt + 300 ≤ t
      · by_cases hg : t - lt < 500
        · simp [release_eq, fireDue, execDouble, timerOf, specNext, gapSmall,
                hf, hg, doubleOuts]
        · simp [release_eq, fireDue, execDouble, timerOf, specNext, gapSmall,
                hf, hg, doubleOuts]
      · by_cases hg : t - lt < 500
        · simp [release_eq, fireDue, execDouble, timerOf, specNext, gapSmall,
                hf, hg, doubleOuts_triple_ite, doubleOuts]
        · simp [release_eq, fireDue, execDouble, timerOf, specNext, gapSmall,
                hf, hg, doubleOuts]
    · by_cases hg : t - lt < 500
      · by_cases h21 : c + 1 = 2
        · simp [release_eq, fireDue, timerOf, specNext, gapSmall, hc, hg, h21,
                doubleOuts]
        · by_cases h3c : 3 ≤ c + 1
          · simp [release_eq, fireDue, timerOf, specNext, gapSmall, hc, hg,
                  h21, h3c, doubleOuts_triple_ite, doubleOuts]
          · simp [release_eq, fireDue, timerOf, specNext, gapSmall, hc, hg,
                  h21, h3c, doubleOuts]
      · simp [release_eq, fireDue, timerOf, specNext, gapSmall, hc, hg,
              doubleOuts]

/-- Simulation for whole traces, including the final timer flush. -/
theorem runRel_matches_spec (rec : Nat → Bool) :
    ∀ (ts : List Nat) (last : Option Nat) (c : Nat),
      doubleOuts ((runRel ⟨last, c, timerOf last c⟩ ts rec).2 ++
          (flushTimer (runRel ⟨last, c, timerOf last c⟩ ts rec).1).2) =
        specDoubles last c ts := by
  intro ts
  induction ts with
  | nil =>
    intro last c
    simp only [runRel, List.nil_append]
    cases last with
    | none =>
      simp [flushTimer, timerOf, specDoubles, doubleOuts]
    | some lt =>
      by_cases hc : c = 2
      · subst hc
        simp [flushTimer, timerOf, execDouble, specDoubles, doubleOuts]
      · simp [flushTimer, timerOf, specDoubles, hc, doubleOuts]
  | cons t rest ih =>
    intro last c
    have step := release_matches_specNext last c t (rec t)
    simp only [runRel]
    rw [List.append_assoc, doubleOuts_append, step.2, step.1,
        ih (specNext last c t).1.1 (specNext last c t).1.2]
    simp [specDoubles]

/-! ## Claim theorems -/

/-- C1: For every sequence of ctrl-key release events (with their
timestamps), the gesture detector invokes the DoubleAction callback if
and only if exactly two significant releases occur within 500 ms of each
other and no third release occurs within the following 300 ms — the
double-invocation times of the detector run coincide, as a list and
hence with multiplicities, with the `specDoubles` scan that formalises
exactly that condition; and each such invocation happens once, at 300 ms
after the second release of its pair (`specDoubles` lists `lt + 300` for
the time `lt` of the pair's second release). -/
theorem double_fires_iff_two_releases (ts : List Nat) (rec : Nat → Bool) :
    doubleOuts (gestureRun ts rec) = specDoubles none 0 ts ∧
    ∀ u : Nat, (gestureRun ts rec).count (u, GAction.double) =
      (specDoubles none 0 ts).count u := by
  have h : doubleOuts (gestureRun ts rec) = specDoubles none 0 ts :=
    runRel_matches_spec rec ts none 0
  refine ⟨h, fun u => ?_⟩
  rw [← h]
  exact (count_doubleOuts _ u).symm

/-- C2: the TripleAction callback is never invoked at a moment when the
is-recording predicate is true; moreover a triple dispatch (which can
only arise from a third release inside the debounce window) cancels the
pending Double timer and resets the counter. -/
theorem triple_suppressed_while_recording :
    (∀ (ts : List Nat) (rec : Nat → Bool) (u : Nat),
        (u, GAction.triple) ∈ gestureRun ts rec → rec u = false) ∧
    (∀ (s : GState) (t : Nat) (r : Bool),
        (t, GAction.triple) ∈ (release s t r).2 →
          (release s t r).1 = ⟨some t, 0, none⟩) := by
  constructor
  · have main : ∀ (rec : Nat → Bool) (ts : List Nat) (s : GState) (u : Nat),
        (u, GAction.triple) ∈ (runRel s ts rec).2 → rec u = false := by
      intro rec ts
      induction ts with
      | nil => intro s u h; simp [runRel] at h
      | cons t rest ih =>
        intro s u h
        simp only [runRel, List.mem_append] at h
        rcases h with h | h
        · obtain ⟨hu, hr, _⟩ := release_triple_state s t u (rec t) h
          rw [hu, hr]
        · exact ih _ u h
    intro ts rec u h
    rcases List.mem_append.mp h with h | h
    · exact main rec ts initG u h
    · exact absurd h (triple_notin_flushTimer _ u)
  · intro s t r h
    exact (release_triple_state s t t r h).2.2

/-- C2 witness: on the trace 0,100,200 ms with the recording predicate
constantly false, a triple is dispatched at 200 ms and the predicate is
indeed false there. -/
theorem triple_suppressed_while_recording_inst :
    (fun _ : Nat => false) 200 = false :=
  triple_suppressed_while_recording.1 [0, 100, 200] (fun _ => false) 200 (by decide)

/-- C8 counterexample: on releases at 0 and 200 ms the Double timer
fires (a terminal action) at 500 ms, after which the press counter is 0,
not 1 as the claim states. -/
theorem terminal_reset_count_cex :
    gestureRun [0, 200] (fun _ => false) = [(500, GAction.double)] ∧
    (gestureFinal [0, 200] (fun _ => false)).ctrlPressCount = 0 ∧
    ¬(gestureFinal [0, 200] (fun _ => false)).ctrlPressCount = 1 := by
  decide

/-- C8 amended: the press counter is reset to 1 whenever the gap since
the previous significant release is at least 500 ms; after a terminal
action it is reset to 0 (the Double timer body resets it to 0, and a
triple dispatch resets it to 0), reaching 1 again only on the next
qualifying release. -/
theorem count_reset_amended :
    (∀ (s : GState) (t : Nat) (r : Bool) (lt : Nat),
        s.lastCtrlTime = some lt → 500 ≤ t - lt →
        (release s t r).1.ctrlPressCount = 1) ∧
    (∀ (s : GState) (ft : Nat), (execDouble s ft).1.ctrlPressCount = 0) ∧
    (∀ (s : GState) (t : Nat) (r : Bool),
        (t, GAction.triple) ∈ (release s t r).2 →
        (release s t r).1.ctrlPressCount = 0) := by
  refine ⟨?_, fun s ft => rfl, ?_⟩
  · intro s t r lt h1 h2
    have hlast : (fireDue s t).1.lastCtrlTime = some lt := by
      rw [fireDue_lastCtrlTime, h1]
    have hg : gapSmall (fireDue s t).1.lastCtrlTime t = false := by
      rw [hlast]
      simp [gapSmall]
      omega
    rw [release_eq, hg]
    simp
  · intro s t r h
    rw [(release_triple_state s t t r h).2.2]

/-- C8 amended witness at concrete states: a release 600 ms after the
previous one resets the counter to 1; the timer body resets it to 0; a
triple dispatch resets it to 0. -/
theorem count_reset_amended_inst :
    (release ⟨some 0, 1, none⟩ 600 false).1.ctrlPressCount = 1 ∧
    (execDouble ⟨some 200, 2, some 500⟩ 500).1.ctrlPressCount = 0 ∧
    (release ⟨some 0, 2, none⟩ 100 false).1.ctrlPressCount = 0 :=
  ⟨count_reset_amended.1 ⟨some 0, 1, none⟩ 600 false 0 rfl (by decide),
   count_reset_amended.2.1 ⟨some 200, 2, some 500⟩ 500,
   count_reset_amended.2.2 ⟨some 0, 2, none⟩ 100 false (by decide)⟩

/-- C3: `stop_recording` clears the recording flag and returns `none`
exactly when no chunk was captured, otherwise the concatenation of all
captured chunks in append order. -/
theorem stop_recording_returns_chunks (s : AudioState) :
    (stop_recording s).1.is_recording = false ∧
    (s.audio_buffer = [] → (stop_recording s).2 = none) ∧
    (s.audio_buffer ≠ [] → (stop_recording s).2 = some s.audio_buffer.flatten) := by
  refine ⟨rfl, ?_, ?_⟩
  · intro h
    simp [stop_recording, h]
  · intro h
    simp [stop_recording, h]

/-- C3 witness: a session with zero chunks returns `none`; a session
with chunks `[1]`, `[2, 3]` returns their concatenation `[1, 2, 3]`. -/
theorem stop_recording_returns_chunks_inst :
    (stop_recording ⟨true, []⟩).2 = none ∧
    (stop_recording ⟨true, [[1], [2, 3]]⟩).2 = some [1, 2, 3] := by
  constructor
  · exact (stop_recording_returns_chunks ⟨true, []⟩).2.1 rfl
  · have h := (stop_recording_returns_chunks ⟨true, [[1], [2, 3]]⟩).2.2 (by decide)
    simpa using h

/-- While recording, every capture callback appends its block in order. -/
theorem feedChunks_recording (cs : List (List Int)) :
    ∀ s : AudioState, s.is_recording = true →
      feedChunks s cs = ⟨true, s.audio_buffer ++ cs⟩ := by
  induction cs with
  | nil =>
    intro s h
    rcases s with ⟨r, b⟩
    subst h
    simp [feedChunks]
  | cons c cs ih =>
    intro s h
    rcases s with ⟨r, b⟩
    subst h
    have step : audio_callback ⟨true, b⟩ c = ⟨true, b ++ [c]⟩ := by
      simp [audio_callback]
    simp only [feedChunks, List.foldl_cons, step]
    have hrest := ih ⟨true, b ++ [c]⟩ rfl
    simp only [feedChunks] at hrest
    rw [hrest]
    simp

/-- C7: a mid-recording snapshot from `get_current_buffer` is a prefix
of the buffer later returned by `stop_recording` for the same session,
whatever blocks the capture callback appends in between. -/
theorem preview_snapshot_extends_to_stop (s : AudioState) (cs : List (List Int))
    (p : List Int) (hrec : s.is_recording = true)
    (hsnap : get_current_buffer s = some p) :
    ∃ q, (stop_recording (feedChunks s cs)).2 = some q ∧ p <+: q := by
  have hne : s.audio_buffer.isEmpty = false := by
    by_contra hab
    have : s.audio_buffer.isEmpty = true := by
      cases h : s.audio_buffer.isEmpty
      · exact absurd h hab
      · rfl
    simp [get_current_buffer, this] at hsnap
  have hp : p = s.audio_buffer.flatten := by
    simp [get_current_buffer, hne] at hsnap
    exact hsnap.symm
  rw [feedChunks_recording cs s hrec]
  refine ⟨(s.audio_buffer ++ cs).flatten, ?_, ?_⟩
  · have : (s.audio_buffer ++ cs).isEmpty = false := by
      cases hb : s.audio_buffer
      · rw [hb] at hne
        simp at hne
      · simp [hb]
    simp [stop_recording, this]
  · rw [hp, List.flatten_append]
    exact ⟨cs.flatten, rfl⟩

/-- C7 witness: snapshot `[1, 2]` taken with one chunk captured is a
prefix of the final buffer after two more callbacks. -/
theorem preview_snapshot_extends_to_stop_inst :
    ∃ q, (stop_recording (feedChunks ⟨true, [[1, 2]]⟩ [[3], [4]])).2 = some q ∧
      [1, 2] <+: q :=
  preview_snapshot_extends_to_stop ⟨true, [[1, 2]]⟩ [[3], [4]] [1, 2] rfl (by decide)

/-- C4 counterexample: a completed recording with zero captured chunks
is shorter than 1 second, is not enqueued — but the error sound is
played, contradicting the claim that no error sound is played for every
sub-1-second recording including zero captured chunks. -/
theorem short_recording_error_sound_cex :
    (stop_and_process ⟨true, []⟩).enqueued = none ∧
    (stop_and_process ⟨true, []⟩).sounds = ["error"] ∧
    ¬(stop_and_process ⟨true, []⟩).sounds = [] := by
  decide

/-- C4 amended: a completed recording with at least one captured chunk
but fewer than 48000 samples is discarded silently (no job enqueued, no
sound, tray back to idle); a recording with zero captured chunks is
likewise not enqueued and returns to idle, but the error sound is
played. -/
theorem short_recording_discarded (s : AudioState) :
    (s.audio_buffer ≠ [] → s.audio_buffer.flatten.length < 48000 →
      (stop_and_process s).enqueued = none ∧
      (stop_and_process s).sounds = [] ∧
      (stop_and_process s).trayUpd = TrayState.idle) ∧
    (s.audio_buffer = [] →
      (stop_and_process s).enqueued = none ∧
      (stop_and_process s).sounds = ["error"] ∧
      (stop_and_process s).trayUpd = TrayState.idle) := by
  rcases s with ⟨r, b⟩
  cases b with
  | nil =>
    constructor
    · intro h1 _
      exact absurd rfl h1
    · intro _
      exact ⟨rfl, rfl, rfl⟩
  | cons x xs =>
    constructor
    · intro _ h2
      have hval : stop_and_process ⟨r, x :: xs⟩ =
          if (x :: xs).flatten.length < 48000 then
            ⟨⟨false, x :: xs⟩, [], TrayState.idle, none⟩
          else
            ⟨⟨false, x :: xs⟩, ["success"], TrayState.processing,
             some (x :: xs).flatten⟩ := rfl
      rw [hval, if_pos h2]
      exact ⟨rfl, rfl, rfl⟩
    · intro h1
      exact absurd h1 (by simp)

/-- C4 amended witness: a single 3-sample chunk is silently discarded. -/
theorem short_recording_discarded_inst :
    (stop_and_process ⟨true, [[1, 2, 3]]⟩).enqueued = none ∧
    (stop_and_process ⟨true, [[1, 2, 3]]⟩).sounds = [] := by
  have h := (short_recording_discarded ⟨true, [[1, 2, 3]]⟩).1 (by decide) (by decide)
  exact ⟨h.1, h.2.1⟩

/-- Once asleep, further monitor polls never emit another stream stop
(the first guard requires the sleeping flag to be false). -/
theorem pollRun_asleep_no_stop (ns : List Nat) :
    ∀ m : MainState, m.is_sleeping = true →
      ((pollRun m ns).2).count SysAction.stopStream = 0 := by
  induction ns with
  | nil =>
    intro m h
    simp [pollRun]
  | cons n ns ih =>
    intro m h
    have hc1 : ¬(m.is_sleeping = false ∧ m.audio.is_recording = false ∧
        AUTO_SLEEP_TIMEOUT < n - m.last_activity_time) := by
      simp [h]
    simp only [pollRun, sleep_monitor_poll, List.count_append]
    rw [if_neg hc1]
    by_cases hc2 : m.cfgUnload = true ∧ m.is_model_loaded = true ∧
        m.audio.is_recording = false ∧ MODEL_UNLOAD_TIMEOUT < n - m.last_activity_time
    · rw [if_pos hc2]
      have hs : ({ m with is_model_loaded := false } : MainState).is_sleeping = true := h
      simp [ih _ hs, List.count_cons]
    · rw [if_neg hc2]
      simp [ih _ h]

/-- Waking from sleep always begins with a stream restart, and leaves
the audio state and popup flag untouched. -/
theorem update_activity_wakes (m : MainState) (now : Nat)
    (h : m.is_sleeping = true) :
    ∃ l, (update_activity m now).2 = SysAction.startStream :: l ∧
      (update_activity m now).1.audio = m.audio ∧
      (update_activity m now).1.popupOpen = m.popupOpen := by
  simp only [update_activity, h]
  by_cases hl : m.is_model_loaded
  · exact ⟨[], by simp [hl]⟩
  · exact ⟨[SysAction.loadModel], by simp [hl]⟩

/-- C5: (a) from an awake, non-recording state, a run of monitor polls
all past the sleep timeout with no intervening activity stops the
capture stream exactly once; (b) from a sleeping state, a Double gesture
emits the stream restart (from `update_activity`) strictly before its
recording toggle, and a Triple gesture emits it strictly before the
history action. -/
theorem sleep_stop_once_and_wake_order (m : MainState) (ns : List Nat) (now : Nat) :
    (m.is_sleeping = false → m.audio.is_recording = false → ns ≠ [] →
      (∀ n ∈ ns, m.last_activity_time + AUTO_SLEEP_TIMEOUT < n) →
      ((pollRun m ns).2).count SysAction.stopStream = 1) ∧
    (m.is_sleeping = true →
      (∃ pre, ((on_double_ctrl m now).2 = pre ++ [SysAction.recStart] ∨
               (on_double_ctrl m now).2 = pre ++ [SysAction.recStop]) ∧
              SysAction.startStream ∈ pre) ∧
      (m.popupOpen = false →
        ∃ pre, (on_triple_ctrl m now).2 = pre ++ [SysAction.histOpen] ∧
               SysAction.startStream ∈ pre)) := by
  constructor
  · intro hawake hrec hne hall
    cases ns with
    | nil => exact absurd rfl hne
    | cons n ns =>
      have hn := hall n (List.mem_cons_self n ns)
      have hc1 : m.is_sleeping = false ∧ m.audio.is_recording = false ∧
          AUTO_SLEEP_TIMEOUT < n - m.last_activity_time :=
        ⟨hawake, hrec, by omega⟩
      simp only [pollRun, sleep_monitor_poll, List.count_append]
      rw [if_pos hc1]
      by_cases hc2 : ({ m with is_sleeping := true } : MainState).cfgUnload = true ∧
          ({ m with is_sleeping := true } : MainState).is_model_loaded = true ∧
          ({ m with is_sleeping := true } : MainState).audio.is_recording = false ∧
          MODEL_UNLOAD_TIMEOUT < n - m.last_activity_time
      · rw [if_pos hc2]
        have hs : ({ { m with is_sleeping := true } with is_model_loaded := false } :
            MainState).is_sleeping = true := rfl
        simp [pollRun_asleep_no_stop ns _ hs, List.count_cons]
      · rw [if_neg hc2]
        have hs : ({ m with is_sleeping := true } : MainState).is_sleeping = true := rfl
        simp [pollRun_asleep_no_stop ns _ hs, List.count_cons]
  · intro hsleep
    obtain ⟨l, hl, haudio, hpopup⟩ := update_activity_wakes m now hsleep
    constructor
    · refine ⟨SysAction.startStream :: l, ?_, List.mem_cons_self _ _⟩
      simp only [on_double_ctrl, haudio]
      by_cases hr : m.audio.is_recording
      · right
        simp [hr, hl]
      · left
        simp [hr, hl]
    · intro hpop
      refine ⟨SysAction.startStream :: l, ?_, List.mem_cons_self _ _⟩
      simp only [on_triple_ctrl, hpopup]
      simp [hpop, hl]

/-- C5 witness: with last activity at 0, polls at 16 s and 26 s stop the
stream exactly once; and from a sleeping state a Double gesture emits
the stream restart before the recording toggle. -/
theorem sleep_stop_once_and_wake_order_inst :
    ((pollRun ⟨0, false, true, false, true, ⟨false, []⟩⟩ [16, 26]).2).count
        SysAction.stopStream = 1 ∧
    (∃ pre, ((on_double_ctrl ⟨5, true, true, false, true, ⟨false, []⟩⟩ 40).2 =
              pre ++ [SysAction.recStart] ∨
             (on_double_ctrl ⟨5, true, true, false, true, ⟨false, []⟩⟩ 40).2 =
              pre ++ [SysAction.recStop]) ∧
            SysAction.startStream ∈ pre) :=
  ⟨(sleep_stop_once_and_wake_order ⟨0, false, true, false, true, ⟨false, []⟩⟩
      [16, 26] 0).1 rfl rfl (by decide) (by decide),
   ((sleep_stop_once_and_wake_order ⟨5, true, true, false, true, ⟨false, []⟩⟩
      [] 40).2 rfl).1⟩

/-- C6: the worker loop processes every queued job (a transcription
exception is caught inside the body, so the loop body is total and the
loop survives to the next job); every job's effect list ends with the
tray returning to idle, whatever the outcome; and when the transcribe
call raises, the error sound and the error notification are emitted. -/
theorem audio_loop_survives_errors (asr : List Int → Except String String)
    (vcEnabled playbackArg : Bool) (jobs : List (List Int)) :
    (audio_processing_run asr vcEnabled playbackArg jobs).length = jobs.length ∧
    (∀ j : List Int,
      (audio_process_job asr vcEnabled playbackArg j).getLast? =
        some (Eff.tray TrayState.idle)) ∧
    (∀ (j : List Int) (e : String), asr (prepare_for_whisper j) = Except.error e →
      Eff.sound "error" ∈ audio_process_job asr vcEnabled playbackArg j ∧
      Eff.notify "MySuperWhisper" ("Error: " ++ e) "dialog-error" ∈
        audio_process_job asr vcEnabled playbackArg j) := by
  refine ⟨by simp [audio_processing_run], ?_, ?_⟩
  · intro j
    simp only [audio_process_job]
    rw [List.getLast?_append_cons]
    rfl
  · intro j e h
    simp [audio_process_job, h]

/-- C6 witness: a job whose transcription raises `"boom"` emits the
error sound and the error notification. -/
theorem audio_loop_survives_errors_inst :
    Eff.sound "error" ∈ audio_process_job (fun _ => Except.error "boom") true false [1] ∧
    Eff.notify "MySuperWhisper" ("Error: " ++ "boom") "dialog-error" ∈
      audio_process_job (fun _ => Except.error "boom") true false [1] :=
  (audio_loop_survives_errors (fun _ => Except.error "boom") true false [[1]]).2.2
    [1] "boom" rfl

/-- C9: calling `transcribe` with no model loaded raises nothing and
returns the empty string, and at the caller a job transcribed with the
model unloaded takes the "nothing detected" path (warning notification
and error cue, tray back to idle), not the exception path. -/
theorem transcribe_unloaded_model_empty (configLang : String) (a : List Int)
    (language : Option String) (fast : Bool) (j : List Int) :
    transcribe none configLang a language fast = Except.ok "" ∧
    audio_process_job (asrOf none configLang) true false j =
      [Eff.sound "error",
       Eff.notify "MySuperWhisper" "No text detected" "dialog-warning",
       Eff.tray TrayState.idle] := by
  constructor
  · rfl
  · simp [audio_process_job, asrOf, transcribe]

/-- C10: a transcription that (after stripping, case-insensitively)
matches a built-in hallucination pattern is mapped by
`process_voice_commands` to the empty string with `should_validate`
false, and the worker then pastes nothing, records nothing in history
and emits no notification: the job's only effect is the tray returning
to idle. -/
theorem hallucination_suppresses_output (text : String) (j : List Int)
    (h : hallucinationMatch text = true) :
    process_voice_commands text = ("", false) ∧
    audio_process_job (fun _ => Except.ok text) true false j =
      [Eff.tray TrayState.idle] := by
  have htext : text ≠ "" := by
    intro he
    rw [he] at h
    exact absurd h (by decide)
  have hp : process_voice_commands text = ("", false) := by
    simp [process_voice_commands, h]
  refine ⟨hp, ?_⟩
  simp [audio_process_job, htext, hp]

/-- C10 witness: the ASR output "Thank you for watching." is filtered
out entirely. -/
theorem hallucination_suppresses_output_inst :
    process_voice_commands "Thank you for watching." = ("", false) ∧
    audio_process_job (fun _ => Except.ok "Thank you for watching.") true false [] =
      [Eff.tray TrayState.idle] :=
  hallucination_suppresses_output "Thank you for watching." [] (by decide)
